import Mathlib

/-!
Shallow embedding of the file-share service (`server.js`).

The service keeps Room documents (file index + text log) in a document
store and file bytes in a GridFS blob store.  We model the persistent
state as a list of rooms plus a list of blobs.  Timestamps are `Int`
(milliseconds since the epoch, as in JavaScript), byte buffers are
`List Nat`.

Environment inputs that the code obtains from the runtime (the generated
unique storage name, whether an individual GridFS write succeeds, whether
a `room.save()` call succeeds) are passed in explicitly, so that every
operation is a pure function of state and environment.

GridFS `_id` values are omitted from the model: the code always deletes
`files[0]._id` after looking blobs up by `filename`, which we model as
removing the first blob with the given filename (GridFS ids are unique).
-/

/-- A file entry embedded in a Room document (`roomSchema.files`).
`filename` is the generated storage key under which the blob lives. -/
structure FileRecord where
  filename : String
  originalName : String
  uploadTime : Int
  fileSize : Nat
deriving DecidableEq, Repr

/-- A text entry embedded in a Room document (`roomSchema.texts`). -/
structure TextRevision where
  content : String
  addedBy : String
  addedAt : Int
deriving DecidableEq, Repr

/-- A Room document (`roomSchema`). -/
structure Room where
  roomCode : String
  createdAt : Int
  files : List FileRecord
  texts : List TextRevision
deriving DecidableEq, Repr

/-- A stored GridFS object: content bytes plus the upload metadata
`{ originalName, roomCode }`, addressed by `filename`. -/
structure Blob where
  filename : String
  content : List Nat
  originalName : String
  roomCode : String
deriving DecidableEq, Repr

/-- The persistent state: the Room collection and the GridFS bucket. -/
structure ServerState where
  rooms : List Room
  blobs : List Blob
deriving DecidableEq, Repr

/-- `Room.findOne({ roomCode })`: first room with the given code
(room codes are unique by schema constraint). -/
def findRoom (roomCode : String) (rooms : List Room) : Option Room :=
  rooms.find? (fun r => r.roomCode = roomCode)

/-- The multer size ceiling: `10 * 1024 * 1024` bytes. -/
def MAX_FILE_SIZE : Nat := 10 * 1024 * 1024

/-- `FILE_LIFETIME = 24 * 60 * 60 * 1000` ms: the retention window. -/
def FILE_LIFETIME : Int := 24 * 60 * 60 * 1000

/-- `CLEANUP_INTERVAL = 60 * 60 * 1000` ms: the sweep period. -/
def CLEANUP_INTERVAL : Int := 60 * 60 * 1000

/-- One incoming multipart file as the upload route sees it, together
with its environment inputs: `genName` is the `uniqueName` the handler
generates (`Date.now() + '-' + random + '-' + originalname`) and
`writeOk` tells whether the GridFS upload stream for this file
finishes (`true`) or errors (`false`). -/
structure UploadIn where
  originalname : String
  buffer : List Nat
  size : Nat
  genName : String
  writeOk : Bool
deriving DecidableEq, Repr

/-- Outcome of the upload route `POST /api/rooms/:roomCode/upload`.
Each constructor carries the persistent state after the request. -/
inductive UploadResult where
  /-- Multer aborted parsing with `LIMIT_FILE_SIZE` before the handler
  ran (a 500 with a MulterError at the HTTP layer). -/
  | payloadTooLarge (st : ServerState)
  /-- `400 No files`. -/
  | noFiles (st : ServerState)
  /-- `404 Room not found`. -/
  | notFound (st : ServerState)
  /-- A GridFS write rejected; the `catch` answered `500`. -/
  | storageFailure (st : ServerState)
  /-- `200` with the list of committed file records. -/
  | ok (st : ServerState) (uploaded : List FileRecord)
deriving DecidableEq, Repr

/-- The GridFS object written for one incoming file:
`openUploadStream(uniqueName, { metadata: { originalName, roomCode } })`
fed with the file's buffer. -/
def mkBlob (roomCode : String) (f : UploadIn) : Blob :=
  ⟨f.genName, f.buffer, f.originalname, roomCode⟩

/-- The `fileData` record pushed onto `room.files` for one file. -/
def mkRec (now : Int) (f : UploadIn) : FileRecord :=
  ⟨f.genName, f.originalname, now, f.size⟩

/-- The `for (const file of files)` loop of the upload handler: write
each blob to GridFS and accumulate the `fileData` records pushed onto
`room.files` / `uploadedFiles`.  A failing write rejects the awaited
promise, which throws out of the loop: the error value carries the
blobs already written (they stay in GridFS), while the accumulated
records are lost because `room.save()` is never reached. -/
def uploadLoop (roomCode : String) (now : Int) :
    List UploadIn → List Blob → List FileRecord →
    Except (List Blob) (List Blob × List FileRecord)
  | [], blobs, acc => .ok (blobs, acc)
  | f :: fs, blobs, acc =>
    if f.writeOk then
      uploadLoop roomCode now fs
        (blobs ++ [mkBlob roomCode f])
        (acc ++ [mkRec now f])
    else
      .error blobs

/-- The upload handler body (after multer): look the room up, stream
every file to GridFS, then `room.save()` the appended records. -/
def uploadFiles (roomCode : String) (now : Int) (files : List UploadIn)
    (st : ServerState) : UploadResult :=
  if files.isEmpty then .noFiles st
  else
    match findRoom roomCode st.rooms with
    | none => .notFound st
    | some _ =>
      match uploadLoop roomCode now files st.blobs [] with
      | .error blobs' => .storageFailure { st with blobs := blobs' }
      | .ok (blobs', recs) =>
        .ok
          { rooms := st.rooms.map (fun r =>
              if r.roomCode = roomCode then { r with files := r.files ++ recs } else r),
            blobs := blobs' }
          recs

/-- The full route `POST /api/rooms/:roomCode/upload`: the multer
middleware (`upload.array('files')`, memory storage, `fileSize` limit
`MAX_FILE_SIZE`) parses the body first.  Multer/busboy abort parsing
with `LIMIT_FILE_SIZE` as soon as one file's byte count exceeds —
strictly — the configured limit, so the handler never runs and the
stores are untouched; a file of exactly the limit is passed through. -/
def uploadRoute (roomCode : String) (now : Int) (files : List UploadIn)
    (st : ServerState) : UploadResult :=
  if files.any (fun f => MAX_FILE_SIZE < f.size) then .payloadTooLarge st
  else uploadFiles roomCode now files st

/-- `GET /api/files/:filename`: `gridfsBucket.find({ filename })`, 404
if empty, else stream the blob, with `Content-Disposition` filename
taken from `metadata.originalName`.  Returns the streamed bytes and
the suggested download name. -/
def downloadFile (filename : String) (st : ServerState) :
    Option (List Nat × String) :=
  match st.blobs.find? (fun b => b.filename = filename) with
  | none => none
  | some b => some (b.content, b.originalName)

/-- The admin-view payload of a room read: the room, the optional
`allFiles` aggregate, and the `isAdmin` flag. -/
structure RoomView where
  room : Room
  allFiles : Option (List FileRecord)
  isAdmin : Bool
deriving DecidableEq, Repr

/-- `GET /api/rooms/:roomCode`: 404 when absent; for `RAMRAM` the
response additionally carries `allFiles = allRooms.flatMap(r => r.files)`
and `isAdmin = true`; every other code (including `RAM123`) gets only
its own room with `isAdmin = false`. -/
def getRoom (roomCode : String) (st : ServerState) : Option RoomView :=
  match findRoom roomCode st.rooms with
  | none => none
  | some room =>
    if roomCode = "RAMRAM" then
      some ⟨room, some (st.rooms.flatMap Room.files), true⟩
    else
      some ⟨room, none, false⟩

/-- `POST /api/rooms`: find-or-create the room (a fresh room has empty
`files` and `texts`), then answer exactly like `getRoom`, except that
for `RAMRAM` the aggregate is computed from `Room.find({})` after the
save, so it ranges over the updated collection. -/
def createOrJoinRoom (roomCode : String) (now : Int) (st : ServerState) :
    RoomView × ServerState :=
  let pair :=
    match findRoom roomCode st.rooms with
    | some r => (r, st.rooms)
    | none =>
      let r : Room := ⟨roomCode, now, [], []⟩
      (r, st.rooms ++ [r])
  let st' : ServerState := { st with rooms := pair.2 }
  if roomCode = "RAMRAM" then
    (⟨pair.1, some (pair.2.flatMap Room.files), true⟩, st')
  else
    (⟨pair.1, none, false⟩, st')

/-- Outcome of `DELETE /api/admin/clear-all/:roomCode`. -/
inductive ClearResult where
  /-- `403 Unauthorized: Only RAMRAM can clear all files`. -/
  | unauthorized
  /-- `200 All files cleared`. -/
  | cleared
deriving DecidableEq, Repr

/-- `DELETE /api/admin/clear-all/:roomCode`: refuse any code other than
`RAMRAM`; otherwise drop and recreate the GridFS bucket (the blob list
becomes empty) and `Room.updateMany({}, { $set: { files: [] } })`
(every room's file list emptied, texts untouched). -/
def bulkClear (roomCode : String) (st : ServerState) :
    ClearResult × ServerState :=
  if roomCode ≠ "RAMRAM" then (.unauthorized, st)
  else
    (.cleared,
      { rooms := st.rooms.map (fun r => { r with files := [] }),
        blobs := [] })

/-- Outcome of the `send-text` socket handler, seen as the abstract
`updateText` operation: `stored` when the room was found and the
revision appended and saved, `notFound` when `Room.findOne` came back
empty and the handler skipped the store entirely.  (The handler sends
no explicit reply; the constructor records which branch ran.) -/
inductive TextResult where
  | stored
  | notFound
deriving DecidableEq, Repr

/-- The `send-text` socket handler: look the room up; if present, push
`{ content, addedBy }` onto `room.texts` and save. -/
def updateText (roomCode content authorId : String) (now : Int)
    (st : ServerState) : TextResult × ServerState :=
  match findRoom roomCode st.rooms with
  | some _ =>
    (.stored,
      { st with rooms := st.rooms.map (fun r =>
          if r.roomCode = roomCode then
            { r with texts := r.texts ++ [⟨content, authorId, now⟩] }
          else r) })
  | none => (.notFound, st)

/-- The broadcast hub's membership state: socket.io's
`io.sockets.adapter.rooms`, a map from room code to the set of member
socket ids, modelled as an association list of member lists. -/
abbrev HubState := List (String × List String)

/-- Add a socket id to a member set (`Set.add`: no duplicates). -/
def addMember (id : String) (ms : List String) : List String :=
  if id ∈ ms then ms else ms ++ [id]

/-- `socket.join(roomCode)`: insert the id into the room's member set,
creating the room entry when absent. -/
def hubJoin (id roomCode : String) : HubState → HubState
  | [] => [(roomCode, [id])]
  | (c, ms) :: rest =>
    if c = roomCode then (c, addMember id ms) :: rest
    else (c, ms) :: hubJoin id roomCode rest

/-- `getUsersInRoom`: `io.sockets.adapter.rooms.get(roomCode)`,
`Array.from` of the set, `[]` when the room has no entry. -/
def getUsersInRoom (roomCode : String) (hub : HubState) : List String :=
  match hub.find? (fun p => p.1 = roomCode) with
  | some p => p.2
  | none => []

/-- The `join-room` socket handler: `socket.join(roomCode)` first, then
reply to the joining socket with `getUsersInRoom(roomCode)` taken from
the updated adapter state.  Returns the new hub state and the
`users-in-room` payload. -/
def joinRoomEvent (id roomCode : String) (hub : HubState) :
    HubState × List String :=
  let hub' := hubJoin id roomCode hub
  (hub', getUsersInRoom roomCode hub')

/-- `gridfsBucket.find({ filename })` followed by
`gridfsBucket.delete(files[0]._id)` when non-empty: remove the first
blob stored under `name`, keep the store unchanged when none is. -/
def deleteBlobByFilename (name : String) : List Blob → List Blob
  | [] => []
  | b :: bs => if b.filename = name then bs else b :: deleteBlobByFilename name bs

/-- The cleanup job's inner `for (const file of room.files)` loop at
time `now`: a file whose age `now - uploadTime` strictly exceeds
`FILE_LIFETIME` is dropped from the list and its blob deleted from
GridFS (silently skipped when already missing); younger files are
pushed onto `newFilesList`.  Returns `(newFilesList, blobs, filesChanged)`. -/
def cleanRoomFiles (now : Int) :
    List FileRecord → List Blob → List FileRecord × List Blob × Bool
  | [], blobs => ([], blobs, false)
  | f :: fs, blobs =>
    if FILE_LIFETIME < now - f.uploadTime then
      let r := cleanRoomFiles now fs (deleteBlobByFilename f.filename blobs)
      (r.1, r.2.1, true)
    else
      let r := cleanRoomFiles now fs blobs
      (f :: r.1, r.2.1, r.2.2)

/-- The cleanup job's per-room body: `RAM123` and `RAMRAM` are skipped
outright (`continue`); otherwise run the file loop and, when anything
changed, persist `room.files = newFilesList` via `room.save()`. -/
def sweepRoom (now : Int) (blobs : List Blob) (room : Room) :
    Room × List Blob :=
  if room.roomCode = "RAM123" ∨ room.roomCode = "RAMRAM" then (room, blobs)
  else
    let r := cleanRoomFiles now room.files blobs
    if r.2.2 then ({ room with files := r.1 }, r.2.1) else (room, r.2.1)

/-- One full run of the `setInterval` cleanup job at time `now`
(`Date.now()`), with every `room.save()` succeeding: fold `sweepRoom`
over `Room.find({})`. -/
def sweep (now : Int) : List Room → List Blob → List Room × List Blob
  | [], blobs => ([], blobs)
  | r :: rs, blobs =>
    let p := sweepRoom now blobs r
    let q := sweep now rs p.2
    (p.1 :: q.1, q.2)

/-- One run of the cleanup job in an environment where `room.save()`
rejects for every room whose code is in `failingSaves`.  The whole room
loop sits inside a single `try { … } catch`, so the first rejected save
throws out of the loop: the failing room keeps its stored file list
(the in-memory assignment was never persisted), every later room is
left untouched for this tick, and the error is swallowed at sweep
level.  The `Bool` records whether the sweep aborted this way.  Blob
deletions for the failing room's expired files have already happened
by the time `save` runs, so they persist. -/
def sweepWithFailures (now : Int) (failingSaves : List String) :
    List Room → List Blob → List Room × List Blob × Bool
  | [], blobs => ([], blobs, false)
  | r :: rs, blobs =>
    if r.roomCode = "RAM123" ∨ r.roomCode = "RAMRAM" then
      let q := sweepWithFailures now failingSaves rs blobs
      (r :: q.1, q.2.1, q.2.2)
    else
      let c := cleanRoomFiles now r.files blobs
      if c.2.2 then
        if r.roomCode ∈ failingSaves then (r :: rs, c.2.1, true)
        else
          let q := sweepWithFailures now failingSaves rs c.2.1
          ({ r with files := c.1 } :: q.1, q.2.1, q.2.2)
      else
        let q := sweepWithFailures now failingSaves rs c.2.1
        (r :: q.1, q.2.1, q.2.2)

/-! ### Lemmas about the cleanup sweeper -/

theorem deleteBlob_sublist (name : String) (bs : List Blob) :
    List.Sublist (deleteBlobByFilename name bs) bs := by
  induction bs with
  | nil => simp [deleteBlobByFilename]
  | cons b bs ih =>
    simp only [deleteBlobByFilename]
    by_cases h : b.filename = name
    · simp only [h, if_pos rfl]
      exact List.sublist_cons_self b bs
    · simp only [if_neg h]
      exact ih.cons₂ b

theorem not_mem_deleteBlob (name : String) (bs : List Blob)
    (hnd : (bs.map Blob.filename).Nodup) :
    name ∉ (deleteBlobByFilename name bs).map Blob.filename := by
  induction bs with
  | nil => simp [deleteBlobByFilename]
  | cons b bs ih =>
    simp only [List.map_cons, List.nodup_cons] at hnd
    simp only [deleteBlobByFilename]
    by_cases h : b.filename = name
    · simp only [h, if_pos rfl]
      rw [← h]
      exact hnd.1
    · simp only [if_neg h, List.map_cons, List.mem_cons, not_or]
      exact ⟨fun e => h e.symm, ih hnd.2⟩

theorem clean_kept (now : Int) (fs : List FileRecord) :
    ∀ bs, (cleanRoomFiles now fs bs).1 =
      fs.filter (fun f => !decide (FILE_LIFETIME < now - f.uploadTime)) := by
  induction fs with
  | nil => intro bs; simp [cleanRoomFiles]
  | cons f fs ih =>
    intro bs
    by_cases h : FILE_LIFETIME < now - f.uploadTime
    · simp [cleanRoomFiles, if_pos h, List.filter_cons, h, ih]
    · simp [cleanRoomFiles, if_neg h, List.filter_cons, h, ih]

theorem clean_changed (now : Int) (fs : List FileRecord) :
    ∀ bs, (cleanRoomFiles now fs bs).2.2 =
      fs.any (fun f => decide (FILE_LIFETIME < now - f.uploadTime)) := by
  induction fs with
  | nil => intro bs; simp [cleanRoomFiles]
  | cons f fs ih =>
    intro bs
    by_cases h : FILE_LIFETIME < now - f.uploadTime
    · simp [cleanRoomFiles, if_pos h, h]
    · simp [cleanRoomFiles, if_neg h, h, ih]

theorem clean_blobs_sublist (now : Int) (fs : List FileRecord) :
    ∀ bs, List.Sublist (cleanRoomFiles now fs bs).2.1 bs := by
  induction fs with
  | nil => intro bs; simp [cleanRoomFiles]
  | cons f fs ih =>
    intro bs
    by_cases h : FILE_LIFETIME < now - f.uploadTime
    · simp only [cleanRoomFiles, if_pos h]
      exact (ih _).trans (deleteBlob_sublist _ _)
    · simp only [cleanRoomFiles, if_neg h]
      exact ih bs

theorem clean_removes_blob (now : Int) (fs : List FileRecord) (f : FileRecord) :
    ∀ bs, f ∈ fs → FILE_LIFETIME < now - f.uploadTime →
      (bs.map Blob.filename).Nodup →
      f.filename ∉ ((cleanRoomFiles now fs bs).2.1).map Blob.filename := by
  induction fs with
  | nil => intro bs hmem; exact absurd hmem (List.not_mem_nil f)
  | cons g gs ih =>
    intro bs hmem hexp hnd
    rcases List.mem_cons.mp hmem with hfg | hmem'
    · subst hfg
      simp only [cleanRoomFiles, if_pos hexp]
      have habs : f.filename ∉
          (deleteBlobByFilename f.filename bs).map Blob.filename :=
        not_mem_deleteBlob _ _ hnd
      intro hc
      exact habs
        ((((clean_blobs_sublist now gs _)).map Blob.filename).mem hc)
    · by_cases hg : FILE_LIFETIME < now - g.uploadTime
      · simp only [cleanRoomFiles, if_pos hg]
        exact ih _ hmem' hexp
          (hnd.sublist ((deleteBlob_sublist g.filename bs).map Blob.filename))
      · simp only [cleanRoomFiles, if_neg hg]
        exact ih _ hmem' hexp hnd

theorem sweepRoom_fst (now : Int) (bs : List Blob) (room : Room) :
    (sweepRoom now bs room).1 =
      if room.roomCode = "RAM123" ∨ room.roomCode = "RAMRAM" then room
      else { room with files :=
        room.files.filter (fun f => !decide (FILE_LIFETIME < now - f.uploadTime)) } := by
  by_cases hs : room.roomCode = "RAM123" ∨ room.roomCode = "RAMRAM"
  · simp [sweepRoom, hs]
  · simp only [sweepRoom, if_neg hs]
    by_cases hc : (cleanRoomFiles now room.files bs).2.2 = true
    · simp [hc, clean_kept]
    · simp only [Bool.not_eq_true] at hc
      have hany := clean_changed now room.files bs
      rw [hc] at hany
      have hall : ∀ f ∈ room.files, ¬ (FILE_LIFETIME < now - f.uploadTime) := by
        intro f hf
        have := (List.any_eq_false.mp hany.symm) f hf
        simpa using this
      have hfilter : room.files.filter
          (fun f => !decide (FILE_LIFETIME < now - f.uploadTime)) = room.files :=
        List.filter_eq_self.mpr (fun f hf => by simpa using hall f hf)
      simp [hc, hfilter]

theorem sweepRoom_blobs_of_normal (now : Int) (bs : List Blob) (room : Room)
    (hs : ¬ (room.roomCode = "RAM123" ∨ room.roomCode = "RAMRAM")) :
    (sweepRoom now bs room).2 = (cleanRoomFiles now room.files bs).2.1 := by
  simp only [sweepRoom, if_neg hs]
  by_cases hc : (cleanRoomFiles now room.files bs).2.2 = true
  · simp [hc]
  · simp only [Bool.not_eq_true] at hc
    simp [hc]

theorem sweepRoom_blobs_sublist (now : Int) (bs : List Blob) (room : Room) :
    List.Sublist (sweepRoom now bs room).2 bs := by
  by_cases hs : room.roomCode = "RAM123" ∨ room.roomCode = "RAMRAM"
  · simp [sweepRoom, hs]
  · rw [sweepRoom_blobs_of_normal now bs room hs]
    exact clean_blobs_sublist now room.files bs

theorem sweep_blobs_sublist (now : Int) (rooms : List Room) :
    ∀ bs, List.Sublist (sweep now rooms bs).2 bs := by
  induction rooms with
  | nil => intro bs; simp [sweep]
  | cons r rs ih =>
    intro bs
    simp only [sweep]
    exact (ih _).trans (sweepRoom_blobs_sublist now bs r)

theorem sweep_fst_map (now : Int) (rooms : List Room) :
    ∀ bs, (sweep now rooms bs).1 =
      rooms.map (fun room =>
        if room.roomCode = "RAM123" ∨ room.roomCode = "RAMRAM" then room
        else { room with files :=
          room.files.filter (fun f => !decide (FILE_LIFETIME < now - f.uploadTime)) }) := by
  induction rooms with
  | nil => intro bs; simp [sweep]
  | cons r rs ih =>
    intro bs
    simp only [sweep, List.map_cons]
    rw [sweepRoom_fst, ih]

theorem sweep_removes_blob (now : Int) (rooms : List Room) :
    ∀ (i : Nat) (hi : i < rooms.length) (f : FileRecord) (bs : List Blob),
      ¬ ((rooms.get ⟨i, hi⟩).roomCode = "RAM123" ∨
          (rooms.get ⟨i, hi⟩).roomCode = "RAMRAM") →
      f ∈ (rooms.get ⟨i, hi⟩).files →
      FILE_LIFETIME < now - f.uploadTime →
      (bs.map Blob.filename).Nodup →
      f.filename ∉ ((sweep now rooms bs).2).map Blob.filename := by
  induction rooms with
  | nil => intro i hi; exact absurd hi (by simp)
  | cons r rs ih =>
    intro i hi f bs hs hmem hexp hnd
    cases i with
    | zero =>
      simp only [List.get] at hs hmem
      simp only [sweep]
      have hblobs := sweepRoom_blobs_of_normal now bs r hs
      have habs : f.filename ∉ ((sweepRoom now bs r).2).map Blob.filename := by
        rw [hblobs]
        exact clean_removes_blob now r.files f bs hmem hexp hnd
      intro hc
      exact habs (((sweep_blobs_sublist now rs _).map Blob.filename).mem hc)
    | succ j =>
      simp only [List.get] at hs hmem
      simp only [sweep]
      have hj : j < rs.length := Nat.lt_of_succ_lt_succ hi
      exact ih j hj f _ hs hmem hexp
        (hnd.sublist ((sweepRoom_blobs_sublist now bs r).map Blob.filename))

/-! ### C1: expiry sweep -/

/-- C1 (amended): in one run of the cleanup sweeper, every FileRecord of
a Normal room (code neither `RAM123` nor `RAMRAM`) whose age at sweep
time strictly exceeds the 24-hour retention window is removed from that
room's file list and its blob is deleted from the store (given the
store's filename-uniqueness invariant), while every room with code
`RAM123` or `RAMRAM` is left entirely unchanged by the sweep regardless
of its files' ages.  (The code tests `fileAge > FILE_LIFETIME`, so a
file of age exactly the window is kept; the claim's "at least" fails,
see the counterexample.) -/
theorem cleanup_sweep_policy (now : Int) (rooms : List Room) (bs : List Blob)
    (i : Nat) (hi : i < rooms.length) (f : FileRecord)
    (hmem : f ∈ (rooms.get ⟨i, hi⟩).files) :
    ((rooms.get ⟨i, hi⟩).roomCode ≠ "RAM123" →
     (rooms.get ⟨i, hi⟩).roomCode ≠ "RAMRAM" →
      FILE_LIFETIME < now - f.uploadTime →
      (∀ r', (sweep now rooms bs).1[i]? = some r' → f ∉ r'.files) ∧
      ((bs.map Blob.filename).Nodup →
        f.filename ∉ ((sweep now rooms bs).2).map Blob.filename)) ∧
    (((rooms.get ⟨i, hi⟩).roomCode = "RAM123" ∨
      (rooms.get ⟨i, hi⟩).roomCode = "RAMRAM") →
      (sweep now rooms bs).1[i]? = some (rooms.get ⟨i, hi⟩)) := by
  constructor
  · intro h1 h2 hexp
    have hs : ¬ ((rooms.get ⟨i, hi⟩).roomCode = "RAM123" ∨
        (rooms.get ⟨i, hi⟩).roomCode = "RAMRAM") := by
      intro h; rcases h with h | h
      · exact h1 h
      · exact h2 h
    constructor
    · intro r' hr'
      rw [sweep_fst_map, List.getElem?_map,
        List.getElem?_eq_getElem hi] at hr'
      simp only [Option.map_some', Option.some_inj] at hr'
      simp only [List.get_eq_getElem] at hs
      rw [if_neg hs] at hr'
      subst hr'
      simp only [List.mem_filter, Bool.not_eq_eq_eq_not, Bool.not_true,
        decide_eq_false_iff_not, not_and]
      intro _ hk
      exact hk hexp
    · intro hnd
      exact sweep_removes_blob now rooms i hi f bs hs hmem hexp hnd
  · intro hs
    rw [sweep_fst_map, List.getElem?_map, List.getElem?_eq_getElem hi]
    simp only [Option.map_some', Option.some_inj]
    simp only [List.get_eq_getElem] at hs ⊢
    rw [if_pos hs]

/-- C1, counterexample to the claim as stated: in the Normal room
`AAA111`, a file uploaded at time 0 has age exactly the 24-hour window
at sweep time `86400000`, i.e. its age is "at least the retention
window", yet the sweep keeps it (the code removes only files strictly
older than the window). -/
theorem cleanup_sweep_boundary_cex :
    (86400000 : Int) - (0 : Int) ≥ FILE_LIFETIME ∧
    ("AAA111" : String) ≠ "RAM123" ∧ ("AAA111" : String) ≠ "RAMRAM" ∧
    (sweep 86400000
        [⟨"AAA111", 0, [⟨"k1", "a.txt", 0, 5⟩], []⟩]
        [⟨"k1", [7], "a.txt", "AAA111"⟩]).1 =
      [⟨"AAA111", 0, [⟨"k1", "a.txt", 0, 5⟩], []⟩] := by
  refine ⟨by decide, by decide, by decide, ?_⟩
  decide

/-- Witness for `cleanup_sweep_policy`: a concrete normal room with one
file strictly older than the window, and a concrete `RAM123` room. -/
theorem cleanup_sweep_policy_witness :
    ((∀ r', (sweep 86400001
        [⟨"AAA111", 0, [⟨"k1", "a.txt", 0, 5⟩], []⟩]
        [⟨"k1", [7], "a.txt", "AAA111"⟩]).1[0]? = some r' →
        (⟨"k1", "a.txt", 0, 5⟩ : FileRecord) ∉ r'.files) ∧
      ((([⟨"k1", [7], "a.txt", "AAA111"⟩] : List Blob).map Blob.filename).Nodup →
        "k1" ∉ ((sweep 86400001
          [⟨"AAA111", 0, [⟨"k1", "a.txt", 0, 5⟩], []⟩]
          [⟨"k1", [7], "a.txt", "AAA111"⟩]).2).map Blob.filename)) ∧
    ((sweep 86400001
        [⟨"RAM123", 0, [⟨"k2", "b.txt", 0, 5⟩], []⟩]
        []).1[0]? = some ⟨"RAM123", 0, [⟨"k2", "b.txt", 0, 5⟩], []⟩) := by
  constructor
  · exact (cleanup_sweep_policy 86400001
      [⟨"AAA111", 0, [⟨"k1", "a.txt", 0, 5⟩], []⟩]
      [⟨"k1", [7], "a.txt", "AAA111"⟩] 0 (by decide)
      ⟨"k1", "a.txt", 0, 5⟩ (by decide)).1 (by decide) (by decide) (by decide)
  · exact (cleanup_sweep_policy 86400001
      [⟨"RAM123", 0, [⟨"k2", "b.txt", 0, 5⟩], []⟩]
      [] 0 (by decide)
      ⟨"k2", "b.txt", 0, 5⟩ (by decide)).2 (by decide)

/-! ### C2: per-file upload failure -/

theorem uploadLoop_error_of_fail (roomCode : String) (now : Int) :
    ∀ (files : List UploadIn) (bs : List Blob) (acc : List FileRecord),
      (∃ f ∈ files, f.writeOk = false) →
      ∃ bs', uploadLoop roomCode now files bs acc = .error bs' := by
  intro files
  induction files with
  | nil =>
    intro bs acc h
    obtain ⟨f, hf, _⟩ := h
    exact absurd hf (List.not_mem_nil f)
  | cons g gs ih =>
    intro bs acc h
    by_cases hg : g.writeOk = true
    · obtain ⟨f, hf, hw⟩ := h
      rcases List.mem_cons.mp hf with hfg | hmem
      · subst hfg; rw [hg] at hw; cases hw
      · simp only [uploadLoop, if_pos hg]
        exact ih _ _ ⟨f, hmem, hw⟩
    · simp only [Bool.not_eq_true] at hg
      simp only [uploadLoop, hg]
      exact ⟨bs, rfl⟩

/-- C2 (amended): if the blob write of any individual file of the batch
fails, the whole upload request fails with a storage error (the thrown
write error is answered by the handler's `catch` as a 500): no
FileRecord of the batch — not even of files whose blobs were written
successfully — is appended to any room, since `room.save()` is never
reached.  Blobs already written earlier in the batch stay in the store.
There is no per-file failure report. -/
theorem upload_write_failure_aborts (roomCode : String) (now : Int)
    (files : List UploadIn) (st : ServerState) (room : Room)
    (hroom : findRoom roomCode st.rooms = some room)
    (hfail : ∃ f ∈ files, f.writeOk = false) :
    ∃ st', uploadFiles roomCode now files st = .storageFailure st' ∧
      st'.rooms = st.rooms := by
  obtain ⟨f, hf, hw⟩ := hfail
  have hne : files.isEmpty = false := by
    rcases files with _ | ⟨g, gs⟩
    · exact absurd hf (List.not_mem_nil f)
    · rfl
  obtain ⟨bs', hloop⟩ :=
    uploadLoop_error_of_fail roomCode now files st.blobs [] ⟨f, hf, hw⟩
  refine ⟨{ st with blobs := bs' }, ?_, rfl⟩
  simp [uploadFiles, hne, hroom, hloop]

/-- C2, counterexample to the claim as stated: a batch of two files into
the existing room `AAA111`, where the first file's blob write succeeds
and the second fails.  The request answers a 500 storage failure, the
room's file list stays empty — the successfully written first file is
NOT committed and no `{committed[], failed[]}` batch result exists; only
the first file's orphaned blob remains in the store. -/
theorem upload_partial_failure_cex :
    uploadFiles "AAA111" 5
      [⟨"good.txt", [1, 2], 2, "k1", true⟩, ⟨"bad.txt", [3], 1, "k2", false⟩]
      ⟨[⟨"AAA111", 0, [], []⟩], []⟩ =
      .storageFailure
        ⟨[⟨"AAA111", 0, [], []⟩], [⟨"k1", [1, 2], "good.txt", "AAA111"⟩]⟩ := by
  decide

/-- Witness for `upload_write_failure_aborts` at a concrete batch. -/
theorem upload_write_failure_aborts_witness :
    ∃ st', uploadFiles "AAA111" 5
        [⟨"good.txt", [1, 2], 2, "k1", true⟩, ⟨"bad.txt", [3], 1, "k2", false⟩]
        ⟨[⟨"AAA111", 0, [], []⟩], []⟩ = .storageFailure st' ∧
      st'.rooms = [⟨"AAA111", 0, [], []⟩] :=
  upload_write_failure_aborts "AAA111" 5
    [⟨"good.txt", [1, 2], 2, "k1", true⟩, ⟨"bad.txt", [3], 1, "k2", false⟩]
    ⟨[⟨"AAA111", 0, [], []⟩], []⟩ ⟨"AAA111", 0, [], []⟩ (by decide)
    ⟨⟨"bad.txt", [3], 1, "k2", false⟩, by decide, rfl⟩

/-! ### C3: size ceiling -/

/-- C3 (amended): an upload batch containing a file whose size is
strictly over the 10 MiB ceiling is rejected by the multer middleware
with `LIMIT_FILE_SIZE` (the `PayloadTooLarge` case) before the handler
runs: the state is returned untouched — no FileRecord is appended to
any room and no blob is created.  A file of exactly the ceiling is NOT
rejected (see the counterexample), so the claim's "at or over" fails. -/
theorem oversize_upload_rejected (roomCode : String) (now : Int)
    (files : List UploadIn) (st : ServerState)
    (h : ∃ f ∈ files, MAX_FILE_SIZE < f.size) :
    uploadRoute roomCode now files st = .payloadTooLarge st := by
  obtain ⟨f, hf, hsz⟩ := h
  have hany : files.any (fun f => MAX_FILE_SIZE < f.size) = true :=
    List.any_eq_true.mpr ⟨f, hf, by simpa using hsz⟩
  simp [uploadRoute, hany]

/-- C3, counterexample to the claim as stated: a file of exactly
`10 * 1024 * 1024` bytes ("at the ceiling") is not rejected — the
upload commits, a FileRecord is appended to room `AAA111` and a blob is
created, because multer only aborts when a file exceeds the limit
strictly. -/
theorem size_ceiling_boundary_cex :
    10485760 ≥ MAX_FILE_SIZE ∧
    uploadRoute "AAA111" 5 [⟨"big.bin", [1], 10485760, "k9", true⟩]
      ⟨[⟨"AAA111", 0, [], []⟩], []⟩ =
      .ok
        ⟨[⟨"AAA111", 0, [⟨"k9", "big.bin", 5, 10485760⟩], []⟩],
         [⟨"k9", [1], "big.bin", "AAA111"⟩]⟩
        [⟨"k9", "big.bin", 5, 10485760⟩] := by
  exact ⟨by decide, by decide⟩

/-- Witness for `oversize_upload_rejected` at a concrete oversize file. -/
theorem oversize_upload_rejected_witness :
    uploadRoute "AAA111" 5 [⟨"huge.bin", [1], 10485761, "k9", true⟩]
      ⟨[⟨"AAA111", 0, [], []⟩], []⟩ =
      .payloadTooLarge ⟨[⟨"AAA111", 0, [], []⟩], []⟩ :=
  oversize_upload_rejected "AAA111" 5 [⟨"huge.bin", [1], 10485761, "k9", true⟩]
    ⟨[⟨"AAA111", 0, [], []⟩], []⟩
    ⟨⟨"huge.bin", [1], 10485761, "k9", true⟩, by decide, by decide⟩

/-! ### C4 and C5: bulk clear -/

/-- C4 (confirmed): a bulk-clear request authenticated with any room
code other than `RAMRAM` is refused with `Unauthorized`, and the whole
persistent state — every room's file list, every room's text log, and
the blob store — is left exactly as it was. -/
theorem bulkClear_unauthorized (roomCode : String) (st : ServerState)
    (h : roomCode ≠ "RAMRAM") :
    bulkClear roomCode st = (.unauthorized, st) := by
  simp [bulkClear, h]

/-- Witness for `bulkClear_unauthorized`: the Permanent-Vault code
`RAM123` may not bulk-clear either. -/
theorem bulkClear_unauthorized_witness :
    bulkClear "RAM123"
      ⟨[⟨"AAA111", 0, [⟨"k1", "a", 0, 1⟩], []⟩], [⟨"k1", [2], "a", "AAA111"⟩]⟩ =
      (.unauthorized,
        ⟨[⟨"AAA111", 0, [⟨"k1", "a", 0, 1⟩], []⟩], [⟨"k1", [2], "a", "AAA111"⟩]⟩) :=
  bulkClear_unauthorized "RAM123" _ (by decide)

/-- C5 (confirmed): bulk-clear with the Admin-Aggregator code `RAMRAM`
succeeds, sets every room's file list to empty, leaves every room's
text log unchanged, and empties the blob store so that downloading any
previously-valid storage key now answers `NotFound`. -/
theorem bulkClear_admin_clears_all (st : ServerState) :
    (bulkClear "RAMRAM" st).1 = .cleared ∧
    ((bulkClear "RAMRAM" st).2).rooms =
      st.rooms.map (fun r => { r with files := [] }) ∧
    ((bulkClear "RAMRAM" st).2).rooms.map Room.texts =
      st.rooms.map Room.texts ∧
    ∀ name, downloadFile name (bulkClear "RAMRAM" st).2 = none := by
  refine ⟨rfl, rfl, ?_, ?_⟩
  · simp [bulkClear, List.map_map, Function.comp]
  · intro name
    simp [bulkClear, downloadFile]

/-! ### C6: upload/download round trip -/

theorem uploadLoop_ok_of_all_ok (roomCode : String) (now : Int) :
    ∀ (files : List UploadIn) (bs : List Blob) (acc : List FileRecord),
      (∀ f ∈ files, f.writeOk = true) →
      uploadLoop roomCode now files bs acc =
        .ok (bs ++ files.map (mkBlob roomCode), acc ++ files.map (mkRec now)) := by
  intro files
  induction files with
  | nil => intro bs acc _; simp [uploadLoop]
  | cons g gs ih =>
    intro bs acc hall
    have hg : g.writeOk = true := hall g (List.mem_cons_self g gs)
    simp only [uploadLoop, if_pos hg]
    rw [ih _ _ (fun f hf => hall f (List.mem_cons_of_mem g hf))]
    simp [List.append_assoc]

theorem find?_upload_batch (roomCode : String) (files : List UploadIn)
    (f : UploadIn) (hdist : (files.map UploadIn.genName).Nodup)
    (hf : f ∈ files) :
    (files.map (mkBlob roomCode)).find?
        (fun b => b.filename = f.genName) = some (mkBlob roomCode f) := by
  induction files with
  | nil => exact absurd hf (List.not_mem_nil f)
  | cons g gs ih =>
    simp only [List.map_cons, List.nodup_cons] at hdist
    rcases List.mem_cons.mp hf with hfg | hmem
    · subst hfg
      exact List.find?_cons_of_pos _ (by simp [mkBlob])
    · have hne : g.genName ≠ f.genName := by
        intro he
        exact hdist.1 (he ▸ List.mem_map_of_mem UploadIn.genName hmem)
      rw [List.map_cons, List.find?_cons_of_neg _ (by simp [mkBlob, hne])]
      exact ih hdist.2 hmem

/-- C6 (confirmed): uploading a batch of files, each under the size
ceiling, into an existing room commits every file, and downloading any
one of them by the storage key generated for it returns exactly the
bytes that were uploaded (together with the original name as the
suggested download filename).  The hypotheses are the store's
key-uniqueness invariant: the generated keys are fresh with respect to
the blob store and pairwise distinct. -/
theorem upload_download_roundtrip (roomCode : String) (now : Int)
    (files : List UploadIn) (st : ServerState) (room : Room) (f : UploadIn)
    (hroom : findRoom roomCode st.rooms = some room)
    (hall : ∀ g ∈ files, g.writeOk = true)
    (hsize : ∀ g ∈ files, g.size ≤ MAX_FILE_SIZE)
    (hfresh : f.genName ∉ st.blobs.map Blob.filename)
    (hdist : (files.map UploadIn.genName).Nodup)
    (hf : f ∈ files) :
    ∃ st', uploadRoute roomCode now files st = .ok st' (files.map (mkRec now)) ∧
      downloadFile f.genName st' = some (f.buffer, f.originalname) := by
  have hany : files.any (fun g => MAX_FILE_SIZE < g.size) = false := by
    rw [List.any_eq_false]
    intro g hg
    simpa using Nat.not_lt.mpr (hsize g hg)
  have hne : files.isEmpty = false := by
    rcases files with _ | ⟨g, gs⟩
    · exact absurd hf (List.not_mem_nil f)
    · rfl
  have hloop := uploadLoop_ok_of_all_ok roomCode now files st.blobs [] hall
  refine ⟨⟨st.rooms.map (fun r =>
      if r.roomCode = roomCode then
        { r with files := r.files ++ files.map (mkRec now) } else r),
    st.blobs ++ files.map (mkBlob roomCode)⟩, ?_, ?_⟩
  · simp [uploadRoute, hany, uploadFiles, hne, hroom, hloop]
  · have hnone : st.blobs.find? (fun b => b.filename = f.genName) = none := by
      rw [List.find?_eq_none]
      intro b hb
      simp only [decide_eq_true_eq]
      intro he
      exact hfresh (he ▸ List.mem_map_of_mem Blob.filename hb)
    simp only [downloadFile, List.find?_append, hnone, Option.none_or]
    rw [find?_upload_batch roomCode files f hdist hf]
    rfl

/-- Witness for `upload_download_roundtrip`: one 2-byte file uploaded
into room `AAA111` and downloaded back under its generated key. -/
theorem upload_download_roundtrip_witness :
    ∃ st', uploadRoute "AAA111" 5 [⟨"a.txt", [9, 8], 2, "k1", true⟩]
        ⟨[⟨"AAA111", 0, [], []⟩], []⟩ =
        .ok st' ([⟨"a.txt", [9, 8], 2, "k1", true⟩].map (mkRec 5)) ∧
      downloadFile "k1" st' = some ([9, 8], "a.txt") :=
  upload_download_roundtrip "AAA111" 5 [⟨"a.txt", [9, 8], 2, "k1", true⟩]
    ⟨[⟨"AAA111", 0, [], []⟩], []⟩ ⟨"AAA111", 0, [], []⟩
    ⟨"a.txt", [9, 8], 2, "k1", true⟩ (by decide)
    (by intro g hg; simp at hg; subst hg; rfl)
    (by intro g hg; simp at hg; subst hg; decide)
    (by decide) (by decide) (by decide)

/-! ### C7: admin aggregation on room reads -/

/-- C7 (confirmed): a room read with the Admin-Aggregator code `RAMRAM`
— via `GET /api/rooms/:roomCode` or `POST /api/rooms` — answers the
room together with `allFiles`, the concatenated union of the file lists
of all rooms (after the lazy create, for the create path), and the
admin flag; a read with any other code, including the Permanent-Vault
code `RAM123`, answers only that room's own data (`allFiles` absent,
admin flag off). -/
theorem room_read_scope (roomCode : String) (now : Int) (st : ServerState) :
    (∀ room, findRoom roomCode st.rooms = some room →
      (roomCode = "RAMRAM" →
        getRoom roomCode st =
          some ⟨room, some (st.rooms.flatMap Room.files), true⟩ ∧
        createOrJoinRoom roomCode now st =
          (⟨room, some (st.rooms.flatMap Room.files), true⟩, st)) ∧
      (roomCode ≠ "RAMRAM" →
        getRoom roomCode st = some ⟨room, none, false⟩ ∧
        createOrJoinRoom roomCode now st = (⟨room, none, false⟩, st))) ∧
    (findRoom roomCode st.rooms = none →
      (roomCode = "RAMRAM" →
        createOrJoinRoom roomCode now st =
          (⟨⟨roomCode, now, [], []⟩,
            some ((st.rooms ++ [(⟨roomCode, now, [], []⟩ : Room)]).flatMap Room.files),
            true⟩,
           ⟨st.rooms ++ [(⟨roomCode, now, [], []⟩ : Room)], st.blobs⟩)) ∧
      (roomCode ≠ "RAMRAM" →
        createOrJoinRoom roomCode now st =
          (⟨⟨roomCode, now, [], []⟩, none, false⟩,
           ⟨st.rooms ++ [(⟨roomCode, now, [], []⟩ : Room)], st.blobs⟩))) := by
  constructor
  · intro room hroom
    constructor
    · intro hadmin
      subst hadmin
      constructor
      · simp [getRoom, hroom]
      · simp [createOrJoinRoom, hroom]
    · intro hother
      constructor
      · simp [getRoom, hroom, hother]
      · simp [createOrJoinRoom, hroom, hother]
  · intro hnone
    constructor
    · intro hadmin
      subst hadmin
      simp [createOrJoinRoom, hnone]
    · intro hother
      simp [createOrJoinRoom, hnone, hother]

/-- Witness for `room_read_scope`: a state with an admin room and a
normal room holding one file each; `RAMRAM` reads the union, `AAA111`
reads only itself. -/
theorem room_read_scope_witness :
    (getRoom "RAMRAM"
        ⟨[⟨"RAMRAM", 0, [⟨"k0", "r", 0, 1⟩], []⟩,
          ⟨"AAA111", 0, [⟨"k1", "a", 0, 2⟩], []⟩], []⟩ =
      some ⟨⟨"RAMRAM", 0, [⟨"k0", "r", 0, 1⟩], []⟩,
            some [⟨"k0", "r", 0, 1⟩, ⟨"k1", "a", 0, 2⟩], true⟩) ∧
    (getRoom "AAA111"
        ⟨[⟨"RAMRAM", 0, [⟨"k0", "r", 0, 1⟩], []⟩,
          ⟨"AAA111", 0, [⟨"k1", "a", 0, 2⟩], []⟩], []⟩ =
      some ⟨⟨"AAA111", 0, [⟨"k1", "a", 0, 2⟩], []⟩, none, false⟩) := by
  constructor
  · have h := ((room_read_scope "RAMRAM" 9
      ⟨[⟨"RAMRAM", 0, [⟨"k0", "r", 0, 1⟩], []⟩,
        ⟨"AAA111", 0, [⟨"k1", "a", 0, 2⟩], []⟩], []⟩).1
      ⟨"RAMRAM", 0, [⟨"k0", "r", 0, 1⟩], []⟩ (by decide)).1 rfl
    exact h.1
  · have h := ((room_read_scope "AAA111" 9
      ⟨[⟨"RAMRAM", 0, [⟨"k0", "r", 0, 1⟩], []⟩,
        ⟨"AAA111", 0, [⟨"k1", "a", 0, 2⟩], []⟩], []⟩).1
      ⟨"AAA111", 0, [⟨"k1", "a", 0, 2⟩], []⟩ (by decide)).2 (by decide)
    exact h.1

/-! ### C8: room-store write failure mid-sweep -/

/-- C8 (amended): the whole room loop of the cleanup job runs inside a
single `try/catch`, so a `room.save()` rejection while persisting one
room's kept file list throws out of the loop and aborts the remainder
of that sweep: the failing room and every room after it keep their
stored file lists for this tick (the failing room's expired blobs have
already been deleted from the store), and the remaining rooms are only
reconsidered on the next tick. -/
theorem sweep_save_failure_aborts (now : Int) (failingSaves : List String)
    (r : Room) (rs : List Room) (bs : List Blob)
    (h1 : r.roomCode ≠ "RAM123") (h2 : r.roomCode ≠ "RAMRAM")
    (hch : (cleanRoomFiles now r.files bs).2.2 = true)
    (hfail : r.roomCode ∈ failingSaves) :
    sweepWithFailures now failingSaves (r :: rs) bs =
      (r :: rs, (cleanRoomFiles now r.files bs).2.1, true) := by
  have hs : ¬ (r.roomCode = "RAM123" ∨ r.roomCode = "RAMRAM") := by
    intro h
    rcases h with h | h
    · exact h1 h
    · exact h2 h
  simp only [sweepWithFailures, if_neg hs, hch, if_pos hfail, if_true]

/-- C8, counterexample to the claim as stated: two Normal rooms, each
holding one expired file.  The save for the first room (`AAA111`)
fails; after the sweep the second room (`BBB222`) still holds its
expired file — it was not processed — although a sweep reaching it
would have emptied it (second conjunct). -/
theorem sweep_save_failure_cex :
    (sweepWithFailures 86400001 ["AAA111"]
        [⟨"AAA111", 0, [⟨"k1", "a", 0, 1⟩], []⟩,
         ⟨"BBB222", 0, [⟨"k2", "b", 0, 1⟩], []⟩]
        [⟨"k1", [0], "a", "AAA111"⟩, ⟨"k2", [0], "b", "BBB222"⟩]).1 =
      [⟨"AAA111", 0, [⟨"k1", "a", 0, 1⟩], []⟩,
       ⟨"BBB222", 0, [⟨"k2", "b", 0, 1⟩], []⟩] ∧
    (sweep 86400001 [⟨"BBB222", 0, [⟨"k2", "b", 0, 1⟩], []⟩]
        [⟨"k2", [0], "b", "BBB222"⟩]).1 =
      [⟨"BBB222", 0, [], []⟩] := by
  exact ⟨by decide, by decide⟩

/-- Witness for `sweep_save_failure_aborts` at the same concrete sweep. -/
theorem sweep_save_failure_aborts_witness :
    sweepWithFailures 86400001 ["AAA111"]
      [⟨"AAA111", 0, [⟨"k1", "a", 0, 1⟩], []⟩,
       ⟨"BBB222", 0, [⟨"k2", "b", 0, 1⟩], []⟩]
      [⟨"k1", [0], "a", "AAA111"⟩, ⟨"k2", [0], "b", "BBB222"⟩] =
      ([⟨"AAA111", 0, [⟨"k1", "a", 0, 1⟩], []⟩,
        ⟨"BBB222", 0, [⟨"k2", "b", 0, 1⟩], []⟩],
       (cleanRoomFiles 86400001 [⟨"k1", "a", 0, 1⟩]
         [⟨"k1", [0], "a", "AAA111"⟩, ⟨"k2", [0], "b", "BBB222"⟩]).2.1,
       true) :=
  sweep_save_failure_aborts 86400001 ["AAA111"]
    ⟨"AAA111", 0, [⟨"k1", "a", 0, 1⟩], []⟩
    [⟨"BBB222", 0, [⟨"k2", "b", 0, 1⟩], []⟩]
    [⟨"k1", [0], "a", "AAA111"⟩, ⟨"k2", [0], "b", "BBB222"⟩]
    (by decide) (by decide) (by decide) (by decide)

/-! ### C9: updateText -/

/-- C9 (confirmed): the `send-text` handler appends and saves the text
revision exactly when a room with the given code exists (`stored`); when
no such room exists it takes the not-found branch and the state is
returned untouched — in particular no TextRevision is stored in any
room.  (The socket handler sends no explicit reply; the result encodes
which branch ran.) -/
theorem updateText_spec (roomCode content authorId : String) (now : Int)
    (st : ServerState) :
    ((findRoom roomCode st.rooms).isSome = true →
      (updateText roomCode content authorId now st).1 = .stored) ∧
    (findRoom roomCode st.rooms = none →
      updateText roomCode content authorId now st = (.notFound, st)) := by
  constructor
  · intro h
    obtain ⟨room, hr⟩ := Option.isSome_iff_exists.mp h
    simp [updateText, hr]
  · intro h
    simp [updateText, h]

/-- Witness for `updateText_spec`: a state with the single room
`AAA111`; a text to it is stored, a text to the absent room `BBB222`
leaves the state untouched. -/
theorem updateText_spec_witness :
    (updateText "AAA111" "hello" "sock1" 7
        ⟨[⟨"AAA111", 0, [], []⟩], []⟩).1 = .stored ∧
    updateText "BBB222" "hello" "sock1" 7
        ⟨[⟨"AAA111", 0, [], []⟩], []⟩ =
      (.notFound, ⟨[⟨"AAA111", 0, [], []⟩], []⟩) := by
  constructor
  · exact (updateText_spec "AAA111" "hello" "sock1" 7
      ⟨[⟨"AAA111", 0, [], []⟩], []⟩).1 (by decide)
  · exact (updateText_spec "BBB222" "hello" "sock1" 7
      ⟨[⟨"AAA111", 0, [], []⟩], []⟩).2 (by decide)

/-! ### C10: join reply contains the joining connection -/

theorem mem_addMember (id : String) (ms : List String) :
    id ∈ addMember id ms := by
  by_cases h : id ∈ ms
  · simp [addMember, h]
  · simp [addMember, h]

/-- C10 (confirmed): the `join-room` handler calls `socket.join` before
snapshotting the adapter's member set, so the `users-in-room` reply sent
to the joining connection always contains that connection's own id. -/
theorem join_reply_contains_self (id roomCode : String) (hub : HubState) :
    id ∈ (joinRoomEvent id roomCode hub).2 := by
  simp only [joinRoomEvent]
  induction hub with
  | nil =>
    simp [hubJoin, getUsersInRoom, mem_addMember]
  | cons p rest ih =>
    obtain ⟨c, ms⟩ := p
    by_cases h : c = roomCode
    · subst h
      simp only [hubJoin, eq_self_iff_true, if_true, getUsersInRoom]
      rw [List.find?_cons_of_pos _ (by simp)]
      exact mem_addMember id ms
    · simp only [hubJoin, if_neg h, getUsersInRoom]
      rw [List.find?_cons_of_neg _ (by simpa using h)]
      exact ih
